import Mathlib

/-!
Verification of the claude-mem worker's token-metrics and orchestration layer.

The definitions below are a shallow embedding of the TypeScript sources:
  - `src/services/worker/TokenMetricsService.ts`
  - `src/services/worker/SDKAgent.ts`
  - `src/services/worker/PerformanceTracker.ts`
  - the `WorkerService.broadcastTokenUpdate` / `broadcastProcessingStatus`
    methods of the worker service.

JavaScript numbers are modelled as exact naturals / integers / rationals
(`Math.round` on a nonnegative quotient of naturals is `natRoundDiv`,
`Math.round` on a rational is `jsRound`, `Math.ceil(a / b)` is `ceilDiv`).
-/

namespace ClaudeMem

/-- `Math.round q` for a finite rational: round half toward positive infinity. -/
def jsRound (q : ℚ) : ℤ := ⌊q + 1/2⌋

/-- `Math.ceil (a / b)` for naturals, `b > 0`. -/
def ceilDiv (a b : ℕ) : ℕ := (a + b - 1) / b

/-- `Math.round (a / b)` for naturals, `b > 0` (half rounds up). -/
def natRoundDiv (a b : ℕ) : ℕ := (2 * a + b) / (2 * b)

/-- JSON insignificant whitespace. -/
def jsonWs (c : Char) : Bool := c = ' ' || c = '\t' || c = '\n' || c = '\r'

/-- Skip JSON whitespace. -/
def skipWs (cs : List Char) : List Char := cs.dropWhile jsonWs

/-- Single-character JSON string escapes. -/
def jsonEscape (c : Char) : Bool :=
  c = '"' || c = '\\' || c = '/' || c = 'b' || c = 'f' || c = 'n' || c = 'r' || c = 't'

/-- The character a single-character JSON escape denotes. -/
def jsonEscapeChar (c : Char) : Char :=
  if c = 'b' then '\x08'
  else if c = 'f' then '\x0c'
  else if c = 'n' then '\n'
  else if c = 'r' then '\r'
  else if c = 't' then '\t'
  else c

/-- Hexadecimal digit. -/
def isHexDigit (c : Char) : Bool :=
  ('0' ≤ c && c ≤ '9') || ('a' ≤ c && c ≤ 'f') || ('A' ≤ c && c ≤ 'F')

/-- Modelled from the `JSON.parse` builtin used by
`TokenMetricsService.calculateReadTokens`: decode the body of a JSON string
literal (the opening quote already consumed), returning the decoded
characters and the input remaining after the closing quote. A `\uXXXX`
escape decodes to one UTF-16 unit, modelled as one placeholder character;
raw control characters are rejected as `JSON.parse` rejects them. -/
def decodeStringBody : List Char → Option (List Char × List Char)
  | [] => none
  | '"' :: rest => some ([], rest)
  | '\\' :: 'u' :: h1 :: h2 :: h3 :: h4 :: rest =>
      if isHexDigit h1 && isHexDigit h2 && isHexDigit h3 && isHexDigit h4 then
        (decodeStringBody rest).map (fun p => ('u' :: p.1, p.2))
      else none
  | '\\' :: e :: rest =>
      if jsonEscape e then
        (decodeStringBody rest).map (fun p => (jsonEscapeChar e :: p.1, p.2))
      else none
  | c :: rest =>
      if c.toNat < 32 then none
      else (decodeStringBody rest).map (fun p => (c :: p.1, p.2))

/-- Parse the comma-separated string elements of a JSON array, positioned
just after `[` (first element pending); fuel bounds the recursion. -/
def parseElems : Nat → List Char → Option (List String × List Char)
  | 0, _ => none
  | fuel + 1, cs =>
    match skipWs cs with
    | '"' :: rest =>
      match decodeStringBody rest with
      | none => none
      | some (content, rest2) =>
        match skipWs rest2 with
        | ',' :: rest3 =>
          (parseElems fuel rest3).map (fun p => (String.mk content :: p.1, p.2))
        | ']' :: rest3 => some ([String.mk content], rest3)
        | _ => none
    | _ => none

/-- Modelled from the `JSON.parse` builtin as used on the observation
columns, restricted to JSON arrays whose elements are string literals (the
shape the store writes via `JSON.stringify` of string arrays); any other
input is treated as a parse failure, for which the caller falls back to the
raw string length exactly as it does on a `JSON.parse` exception. -/
def parseJsonStringArray (s : String) : Option (List String) :=
  match skipWs s.toList with
  | '[' :: rest =>
    match skipWs rest with
    | ']' :: rest2 => if (skipWs rest2).isEmpty then some [] else none
    | _ =>
      match parseElems (rest.length + 1) rest with
      | some (elems, rest2) => if (skipWs rest2).isEmpty then some elems else none
      | none => none
  | _ => none

/-- `getJsonArrayContentLength` from `TokenMetricsService.calculateReadTokens`:
content length of a JSON-array-encoded field — the joined elements' length on
a successful array parse, the raw string length otherwise, `0` for an absent
or empty string (`if (!jsonStr) return 0`). -/
def getJsonArrayContentLength : Option String → Nat
  | none => 0
  | some s =>
    match parseJsonStringArray s with
    | some arr => (arr.map String.length).sum
    | none => s.length

/-- An observation row as stored in the `observations` table (all text
columns nullable). `Option` fields model SQL `NULL` / absent JS properties. -/
structure ObservationRow where
  id : Nat
  type : Option String
  title : Option String
  subtitle : Option String
  narrative : Option String
  facts : Option String
  concepts : Option String
  files_read : Option String
  files_modified : Option String
  discovery_tokens : Option Nat
  created_at_epoch : Nat
  project : Option String
deriving Repr, DecidableEq

/-- `obs.field?.length || 0`. -/
def optLen (o : Option String) : Nat := (o.map String.length).getD 0

-- Heuristic: 1 token ≈ 4 characters (CHARS_PER_TOKEN).
def CHARS_PER_TOKEN : Nat := 4

/-- `TokenMetricsService.calculateReadTokens`: `Math.ceil(size / 4)` where
`size` sums the lengths of `title`, `subtitle`, `narrative` and the JSON
content lengths of `facts`, `concepts`, `files_read`, `files_modified` as
present on the row object handed to it. -/
def calculateReadTokens (obs : ObservationRow) : Nat :=
  ceilDiv
    (optLen obs.title + optLen obs.subtitle + optLen obs.narrative +
      getJsonArrayContentLength obs.facts +
      getJsonArrayContentLength obs.concepts +
      getJsonArrayContentLength obs.files_read +
      getJsonArrayContentLength obs.files_modified)
    CHARS_PER_TOKEN

/-- The row produced by `getSummary`'s query
`SELECT id, type, title, subtitle, narrative, facts, discovery_tokens,
created_at_epoch, project FROM observations`: the `concepts`, `files_read`
and `files_modified` columns are not selected, so those properties are
absent (`undefined`) on the JS row object. -/
def selectSummaryRow (o : ObservationRow) : ObservationRow :=
  { o with concepts := none, files_read := none, files_modified := none }

/-- The row produced by `getEndlessModeProjection`'s query
`SELECT id, type, title, subtitle, narrative, facts, discovery_tokens`:
like `selectSummaryRow`, `concepts`, `files_read`, `files_modified` are
absent (the further unselected columns do not feed any computation). -/
def selectProjectionRow (o : ObservationRow) : ObservationRow :=
  { o with concepts := none, files_read := none, files_modified := none }

/-- The WHERE clause of `getSummary`: `project = ?` when a project filter is
given and `created_at_epoch >= ?` when a since bound is given. -/
def matchesFilter (project : Option String) (sinceEpoch : Option Nat)
    (o : ObservationRow) : Bool :=
  (match project with
   | none => true
   | some p => o.project = some p) &&
  (match sinceEpoch with
   | none => true
   | some e => decide (e ≤ o.created_at_epoch))

/-- The `TokenSummary` record returned by `getSummary`. -/
structure TokenSummary where
  totalObservations : Nat
  totalReadTokens : Nat
  totalDiscoveryTokens : Nat
  savings : ℤ
  savingsPercent : ℤ
  efficiencyGain : ℚ
  avgReadTokensPerObs : Nat
  avgDiscoveryTokensPerObs : Nat
deriving Repr, DecidableEq

/-- The accumulation loop of `getSummary`:
`for (const obs of observations) { totalReadTokens += this.calculateReadTokens(obs);
totalDiscoveryTokens += obs.discovery_tokens || 0; }`. -/
def summaryLoop (rows : List ObservationRow) : Nat × Nat :=
  rows.foldl
    (fun acc o =>
      (acc.1 + calculateReadTokens o, acc.2 + (o.discovery_tokens.getD 0)))
    (0, 0)

/-- `TokenMetricsService.getSummary` (the uncached computation): filter the
observations table, project each row through the SELECT column list, run the
accumulation loop, and derive the ratio fields. -/
def getSummary (db : List ObservationRow) (project : Option String)
    (sinceEpoch : Option Nat) : TokenSummary :=
  let observations := (db.filter (matchesFilter project sinceEpoch)).map selectSummaryRow
  let totals := summaryLoop observations
  let totalReadTokens := totals.1
  let totalDiscoveryTokens := totals.2
  let totalObservations := observations.length
  let savings : ℤ := (totalDiscoveryTokens : ℤ) - (totalReadTokens : ℤ)
  let savingsPercent : ℤ :=
    if 0 < totalDiscoveryTokens then
      jsRound ((savings : ℚ) / (totalDiscoveryTokens : ℚ) * 100)
    else 0
  let efficiencyGain : ℚ :=
    if 0 < totalReadTokens then
      (jsRound ((totalDiscoveryTokens : ℚ) / (totalReadTokens : ℚ) * 10) : ℚ) / 10
    else 0
  { totalObservations := totalObservations
    totalReadTokens := totalReadTokens
    totalDiscoveryTokens := totalDiscoveryTokens
    savings := savings
    savingsPercent := savingsPercent
    efficiencyGain := efficiencyGain
    avgReadTokensPerObs :=
      if 0 < totalObservations then natRoundDiv totalReadTokens totalObservations else 0
    avgDiscoveryTokensPerObs :=
      if 0 < totalObservations then natRoundDiv totalDiscoveryTokens totalObservations else 0 }

/-- Insert a row into a list kept in descending `created_at_epoch` order
(models the SQL `ORDER BY created_at_epoch DESC`). -/
def insertByEpochDesc (o : ObservationRow) : List ObservationRow → List ObservationRow
  | [] => [o]
  | x :: xs =>
      if o.created_at_epoch ≤ x.created_at_epoch then x :: insertByEpochDesc o xs
      else o :: x :: xs

/-- Sort rows newest-first by `created_at_epoch`. -/
def sortByEpochDesc (rows : List ObservationRow) : List ObservationRow :=
  rows.foldr insertByEpochDesc []

/-- The `EndlessModeProjection` record. -/
structure ProjectionSide where
  totalTokens : Nat
  discoveryTokens : Nat
  continuationTokens : Nat
deriving Repr, DecidableEq

structure EndlessModeProjection where
  withoutEndlessMode : ProjectionSide
  withEndlessMode : ProjectionSide
  tokensSaved : ℤ
  percentSaved : ℚ
  efficiencyGain : ℚ
deriving Repr, DecidableEq

/-- `estimateOriginalSize`: original tool output ≈ 2 × its discovery cost. -/
def estimateOriginalSize (discoveryTokens : Nat) : Nat := discoveryTokens * 2

/-- The WITHOUT-endless-mode simulation loop of `getEndlessModeProjection`:
state `(totalDiscovery, cumulativeContext, totalContinuation)`; per row add
`discovery_tokens || 0` to the first, `estimateOriginalSize` of it to the
running context, and the updated context to the continuation total. -/
def simulateWithout (rows : List ObservationRow) : Nat × Nat × Nat :=
  rows.foldl
    (fun acc o =>
      let discoveryTokens := o.discovery_tokens.getD 0
      let originalSize := estimateOriginalSize discoveryTokens
      let ctx := acc.2.1 + originalSize
      (acc.1 + discoveryTokens, ctx, acc.2.2 + ctx))
    ((0, 0, 0) : Nat × Nat × Nat)

/-- The WITH-endless-mode simulation loop: as `simulateWithout` but the
running context grows by `calculateReadTokens obs` instead. -/
def simulateWith (rows : List ObservationRow) : Nat × Nat × Nat :=
  rows.foldl
    (fun acc o =>
      let discoveryTokens := o.discovery_tokens.getD 0
      let compressedSize := calculateReadTokens o
      let ctx := acc.2.1 + compressedSize
      (acc.1 + discoveryTokens, ctx, acc.2.2 + ctx))
    ((0, 0, 0) : Nat × Nat × Nat)

/-- The all-zero projection returned when no observations match. -/
def emptyProjection : EndlessModeProjection :=
  { withoutEndlessMode := ⟨0, 0, 0⟩
    withEndlessMode := ⟨0, 0, 0⟩
    tokensSaved := 0
    percentSaved := 0
    efficiencyGain := 0 }

/-- The row sequence of `getEndlessModeProjection`'s query: `WHERE project = ?`
when a project filter is given, `ORDER BY created_at_epoch DESC LIMIT
observationCount`, each row through the projection SELECT's column list. -/
def projectionRows (db : List ObservationRow) (project : Option String)
    (observationCount : Nat) : List ObservationRow :=
  ((sortByEpochDesc (db.filter (fun o =>
      match project with
      | none => true
      | some p => o.project = some p))).take observationCount).map
    selectProjectionRow

/-- `TokenMetricsService.getEndlessModeProjection` (uncached computation):
select the `observationCount` most recent rows (newest-first, optional
project filter, columns as in `selectProjectionRow`), run both simulations
and derive the totals and ratios. -/
def getEndlessModeProjection (db : List ObservationRow) (project : Option String)
    (observationCount : Nat := 50) : EndlessModeProjection :=
  let observations := projectionRows db project observationCount
  if observations.isEmpty then emptyProjection
  else
    let w := simulateWithout observations
    let e := simulateWith observations
    let withoutTotal := w.1 + w.2.2
    let withTotal := e.1 + e.2.2
    let tokensSaved : ℤ := (withoutTotal : ℤ) - (withTotal : ℤ)
    let percentSaved : ℚ :=
      if 0 < withoutTotal then
        (jsRound ((tokensSaved : ℚ) / (withoutTotal : ℚ) * 1000) : ℚ) / 10
      else 0
    let efficiencyGain : ℚ :=
      if 0 < withTotal then
        (jsRound ((withoutTotal : ℚ) / (withTotal : ℚ) * 10) : ℚ) / 10
      else 0
    { withoutEndlessMode :=
        { totalTokens := withoutTotal, discoveryTokens := w.1, continuationTokens := w.2.2 }
      withEndlessMode :=
        { totalTokens := withTotal, discoveryTokens := e.1, continuationTokens := e.2.2 }
      tokensSaved := tokensSaved
      percentSaved := percentSaved
      efficiencyGain := efficiencyGain }

/-- The record returned by `getQuickSummary`. -/
structure QuickSummary where
  totalDiscoveryTokens : Nat
  totalReadTokens : Nat
  savings : ℤ
  savingsPercent : ℤ
deriving Repr, DecidableEq

/-- The per-row SQL expression of `getQuickSummary`:
`CAST((LENGTH(COALESCE(title,'')) + LENGTH(COALESCE(subtitle,'')) +
LENGTH(COALESCE(narrative,'')) + LENGTH(COALESCE(facts,'[]'))) / 4.0 AS
INTEGER)` — raw column lengths (a NULL `facts` counts as the two-character
`'[]'`), quotient truncated toward zero. -/
def sqlRowReadTokens (o : ObservationRow) : Nat :=
  (optLen o.title + optLen o.subtitle + optLen o.narrative +
    ((o.facts.map String.length).getD 2)) / CHARS_PER_TOKEN

/-- `TokenMetricsService.getQuickSummary`: one unfiltered SQL aggregate over
all observations, then the savings arithmetic. -/
def getQuickSummary (db : List ObservationRow) : QuickSummary :=
  let totalDiscoveryTokens : Nat := (db.map (fun o => o.discovery_tokens.getD 0)).sum
  let totalReadTokens : Nat := (db.map sqlRowReadTokens).sum
  let savings : ℤ := (totalDiscoveryTokens : ℤ) - (totalReadTokens : ℤ)
  { totalDiscoveryTokens := totalDiscoveryTokens
    totalReadTokens := totalReadTokens
    savings := savings
    savingsPercent :=
      if 0 < totalDiscoveryTokens then
        jsRound ((savings : ℚ) / (totalDiscoveryTokens : ℚ) * 100)
      else 0 }

/-- JS `s.includes(pat)` (substring containment; true for an empty pattern). -/
def strIncludes (s pat : String) : Bool := decide (pat.toList <:+: s.toList)

/-- JS `key.startsWith('summary:')`. -/
def isSummaryKey (s : String) : Bool := decide ("summary:".toList <+: s.toList)

/-- `TokenMetricsService.invalidateCache`: iterate over the cache keys,
deleting every key with `!project || key.includes(project) ||
key.startsWith('summary:')`. Returns the surviving keys in order. -/
def invalidateCache (project : Option String) : List String → List String
  | [] => []
  | k :: rest =>
    if (match project with
        | none => true
        | some p => strIncludes k p || isSummaryKey k) then
      invalidateCache project rest
    else k :: invalidateCache project rest

/-- The `WorkerService` fields read by `broadcastTokenUpdate`:
`lastTokenBroadcast` and whether `tokenMetricsService` is non-null. -/
structure WorkerState where
  lastTokenBroadcast : Nat
  initialized : Bool
deriving Repr, DecidableEq

/-- A `token_update` payload: the full `TokenSummary` of `getSummary`, or
the four-field record of `getQuickSummary`. -/
inductive TokenPayload
  | full (s : TokenSummary)
  | quick (q : QuickSummary)
deriving Repr, DecidableEq

/-- One invocation of `broadcastTokenUpdate`: the wall-clock time, the
observation table at that instant, and whether the summary computation
raises (a store error caught by the surrounding `try`). -/
structure BroadcastCall where
  now : Nat
  db : List ObservationRow
  summaryFails : Bool
deriving Repr, DecidableEq

/-- `WorkerService.broadcastTokenUpdate` with exception flow explicit: a
point where an exception escaped to the caller would produce `.error`; the
throttle check, the null-service check and the `try/catch` all return
normally. Emits the summary computed by `this.tokenMetricsService.getSummary()`
(no arguments) when it emits at all. -/
def broadcastTokenUpdate (st : WorkerState) (c : BroadcastCall) :
    Except String (WorkerState × Option TokenPayload) :=
  if c.now < st.lastTokenBroadcast + 1000 then .ok (st, none)
  else
    let st' := { st with lastTokenBroadcast := c.now }
    if !st.initialized then .ok (st', none)
    else if c.summaryFails then .ok (st', none)
    else .ok (st', some (.full (getSummary c.db none none)))

/-- Fold `broadcastTokenUpdate` over a call sequence, collecting the emitted
`token_update` frames with their emission times. -/
def broadcastRun (st : WorkerState) : List BroadcastCall → List (Nat × TokenPayload)
  | [] => []
  | c :: rest =>
    match broadcastTokenUpdate st c with
    | .error _ => []
    | .ok (st', none) => broadcastRun st' rest
    | .ok (st', some p) => (c.now, p) :: broadcastRun st' rest

/-- The `usage` record of an assistant reply. -/
structure Usage where
  input_tokens : Nat
  output_tokens : Nat
  cache_creation_input_tokens : Nat
  cache_read_input_tokens : Nat
deriving Repr, DecidableEq

/-- The cumulative token counters of an `ActiveSession`. -/
structure SessionTokens where
  cumulativeInputTokens : Nat
  cumulativeOutputTokens : Nat
deriving Repr, DecidableEq

/-- The usage-tracking block of `SDKAgent.startSession` for one assistant
message: `cumulativeInputTokens += usage.input_tokens || 0`, then
`cache_creation_input_tokens` added under its truthiness guard, and
`cumulativeOutputTokens += usage.output_tokens || 0`; no usage record
leaves both counters unchanged. -/
def applyUsage (s : SessionTokens) : Option Usage → SessionTokens
  | none => s
  | some u =>
    let withInput := s.cumulativeInputTokens + u.input_tokens
    { cumulativeInputTokens :=
        if u.cache_creation_input_tokens ≠ 0 then withInput + u.cache_creation_input_tokens
        else withInput
      cumulativeOutputTokens := s.cumulativeOutputTokens + u.output_tokens }

/-- One assistant reply in `SDKAgent.startSession`: snapshot
`tokensBefore = cumulativeInputTokens + cumulativeOutputTokens`, apply the
usage update, and return `discoveryTokens` = post-update cumulative total
minus the snapshot. -/
def assistantStep (s : SessionTokens) (usage : Option Usage) : SessionTokens × Nat :=
  let tokensBefore := s.cumulativeInputTokens + s.cumulativeOutputTokens
  let s' := applyUsage s usage
  (s', s'.cumulativeInputTokens + s'.cumulativeOutputTokens - tokensBefore)

/-- The observation-storing loop of `SDKAgent.processSDKResponse`: each
parsed observation is persisted via `storeObservation` with the one
`discoveryTokens` value computed for the reply. -/
def storeObservationsLoop {α : Type} : List α → Nat → List (α × Nat)
  | [], _ => []
  | o :: rest, d => (o, d) :: storeObservationsLoop rest d

/-- The kind tag of a pending message. -/
inductive PendingKind
  | observation
  | summarize
deriving Repr, DecidableEq

/-- A pending message as consumed by `SDKAgent.createMessageGenerator`
(fields not read by the prompt-number logic omitted). -/
structure PendingMsg where
  kind : PendingKind
  prompt_number : Option Nat
deriving Repr, DecidableEq

/-- The `lastPromptNumber` update of `SDKAgent.createMessageGenerator`: an
observation message carrying a `prompt_number` overwrites
`session.lastPromptNumber`; any other message leaves it unchanged. -/
def generatorStep (lastPromptNumber : Nat) (m : PendingMsg) : Nat :=
  match m.kind, m.prompt_number with
  | .observation, some n => n
  | _, _ => lastPromptNumber

/-- The successive values of `session.lastPromptNumber` in force at each
yield of the generator loop (the update precedes the yield, so entry `i` is
the value when frame `i` is handed to the analyzer). -/
def promptNumberTrace (lastPromptNumber : Nat) : List PendingMsg → List Nat
  | [] => []
  | m :: rest =>
    let s := generatorStep lastPromptNumber m
    s :: promptNumberTrace s rest

/-- The prompt numbers carried by observation messages, in order. -/
def carriedPromptNumbers (msgs : List PendingMsg) : List Nat :=
  msgs.filterMap (fun m =>
    match m.kind, m.prompt_number with
    | .observation, some n => some n
    | _, _ => none)

/-- A queue-depth sample of `PerformanceTracker`. -/
structure QueueHistoryPoint where
  timestamp : Nat
  queueDepth : Nat
  activeSessions : Nat
deriving Repr, DecidableEq

/-- A processing-duration record of `PerformanceTracker`. -/
structure ProcessingTimeRecord where
  timestamp : Nat
  duration : Nat
  toolName : String
  discoveryTokens : Nat
  observationCount : Nat
deriving Repr, DecidableEq

/-- The `PerformanceStats` record. -/
structure PerformanceStats where
  avgProcessingTime : Nat
  p50ProcessingTime : Nat
  p95ProcessingTime : Nat
  avgQueueDepth : ℚ
  peakQueueDepth : Nat
  observationsPerMinute : ℚ
deriving Repr, DecidableEq

/-- JS `array.slice(-n)` for `n ≥ 0`: the last `n` elements (`slice(-0)` is
the whole array). -/
def takeLast {α : Type} (n : Nat) (l : List α) : List α :=
  if n = 0 then l else l.drop (l.length - n)

/-- Insertion step of the ascending sort `durations.sort((a, b) => a - b)`. -/
def insertAsc (x : Nat) : List Nat → List Nat
  | [] => [x]
  | y :: ys => if x ≤ y then x :: y :: ys else y :: insertAsc x ys

/-- Ascending sort of the filtered durations. -/
def sortAsc (l : List Nat) : List Nat := l.foldr insertAsc []

/-- `PerformanceTracker.percentile`: nearest-rank index
`Math.ceil((p/100)·n) − 1`, clamped into `[0, n−1]`; `0` on an empty
array. -/
def percentile (sortedArray : List Nat) (p : Nat) : Nat :=
  if sortedArray.isEmpty then 0
  else
    let idx := ceilDiv (p * sortedArray.length) 100 - 1
    sortedArray.getD (min idx (sortedArray.length - 1)) 0

/-- `PerformanceTracker.getQueueHistory`: filter by the since bound (default
one hour before now), keep the last `limit` points, and compute the average
(rounded to one decimal) and peak depth. Returns (filtered, avg, peak). -/
def getQueueHistory (now : Nat) (sinceEpoch : Option Nat)
    (queueHistory : List QueueHistoryPoint) (limit : Nat := 100) :
    List QueueHistoryPoint × ℚ × Nat :=
  let since := sinceEpoch.getD (now - 60 * 60 * 1000)
  let filtered := takeLast limit (queueHistory.filter (fun p => since ≤ p.timestamp))
  let depths : List Nat := filtered.map (fun p => p.queueDepth)
  let avgQueueDepth : ℚ :=
    if 0 < depths.length then
      (jsRound ((depths.sum : ℚ) / (depths.length : ℚ) * 10) : ℚ) / 10
    else 0
  (filtered, avgQueueDepth, depths.foldr max 0)

/-- The filtered record list of `getProcessingTimes`:
`this.processingTimes.filter(p => p.timestamp >= sinceEpoch).slice(-limit)`
with the since bound defaulting to 24 hours before now. -/
def filteredTimes (now : Nat) (sinceEpoch : Option Nat)
    (processingTimes : List ProcessingTimeRecord) (limit : Nat) :
    List ProcessingTimeRecord :=
  takeLast limit (processingTimes.filter
    (fun p => sinceEpoch.getD (now - 24 * 60 * 60 * 1000) ≤ p.timestamp))

/-- The ascending-sorted durations of the filtered records. -/
def sortedDurations (now : Nat) (sinceEpoch : Option Nat)
    (processingTimes : List ProcessingTimeRecord) (limit : Nat) : List Nat :=
  sortAsc ((filteredTimes now sinceEpoch processingTimes limit).map
    (fun p => p.duration))

/-- `PerformanceTracker.getProcessingTimes`: filter the duration records by
the since bound (default 24 hours before now), keep the last `limit`, sort
the durations ascending, and fill the stats; the queue-depth stats are
folded in from `getQueueHistory` with the same since argument. Returns
(filtered records, stats). -/
def getProcessingTimes (now : Nat) (sinceEpoch : Option Nat)
    (processingTimes : List ProcessingTimeRecord)
    (queueHistory : List QueueHistoryPoint) (limit : Nat := 100) :
    List ProcessingTimeRecord × PerformanceStats :=
  let filtered := filteredTimes now sinceEpoch processingTimes limit
  let durations := sortAsc (filtered.map (fun p => p.duration))
  let base : PerformanceStats :=
    { avgProcessingTime := 0, p50ProcessingTime := 0, p95ProcessingTime := 0
      avgQueueDepth := 0, peakQueueDepth := 0, observationsPerMinute := 0 }
  let stats :=
    if 0 < durations.length then
      let timeSpan := ((filtered.getLast?.map (fun r => r.timestamp)).getD 0) -
        ((filtered.head?.map (fun r => r.timestamp)).getD 0)
      let effectiveTimeSpan := max timeSpan 1
      let totalObservations :=
        (filtered.map (fun r => if r.observationCount = 0 then 1 else r.observationCount)).sum
      { base with
        avgProcessingTime := natRoundDiv durations.sum durations.length
        p50ProcessingTime := percentile durations 50
        p95ProcessingTime := percentile durations 95
        observationsPerMinute :=
          (jsRound ((totalObservations : ℚ) / ((effectiveTimeSpan : ℚ) / 60000) * 10) : ℚ) / 10 }
    else base
  let q := getQueueHistory now sinceEpoch queueHistory
  (filtered, { stats with avgQueueDepth := q.2.1, peakQueueDepth := q.2.2 })

/-- The read-token cost as the spec states it (§4.7): `ceil(S/4)` where `S`
sums `title`, `subtitle`, `narrative` and the JSON content lengths of all
four array fields of the stored observation. -/
def specReadTokenCost (o : ObservationRow) : Nat :=
  ceilDiv
    (optLen o.title + optLen o.subtitle + optLen o.narrative +
      getJsonArrayContentLength o.facts +
      getJsonArrayContentLength o.concepts +
      getJsonArrayContentLength o.files_read +
      getJsonArrayContentLength o.files_modified)
    4

/-- Sum of all prefix sums of a list: `Σ_{i} Σ_{j ≤ i} l_j`. The running
continuation total of the projection's simulated streams. -/
def prefixSumTotal : List Nat → Nat
  | [] => 0
  | a :: rest => a * (rest.length + 1) + prefixSumTotal rest

/-- The generator's yields: each consumed message paired with the
`session.lastPromptNumber` value in force when its frame is yielded. -/
def generatorYields (lastPromptNumber : Nat) : List PendingMsg → List (Nat × PendingMsg)
  | [] => []
  | m :: rest =>
    let s := generatorStep lastPromptNumber m
    (s, m) :: generatorYields s rest

/-- A stored observation whose `concepts` column is non-empty: the spec's
per-row cost counts its 6 content characters, the code's `getSummary`
aggregation does not (the column is absent from its SELECT list). -/
def c1FailingObs : ObservationRow :=
  { id := 1, type := some "discovery", title := some "ok", subtitle := none
    narrative := none, facts := some "[]", concepts := some "[\"abcdef\"]"
    files_read := some "[]", files_modified := some "[]"
    discovery_tokens := some 0, created_at_epoch := 1, project := some "demo" }

/-- A one-row observation table on which `getSummary` and `getQuickSummary`
disagree: `getSummary` costs the single title character `ceil(1/4) = 1`
read token, the quick summary's SQL truncation gives `(1 + 2) / 4 = 0`. -/
def c6Db : List ObservationRow :=
  [{ id := 1, type := some "discovery", title := some "x", subtitle := none
     narrative := none, facts := some "[]", concepts := none
     files_read := none, files_modified := none
     discovery_tokens := some 40, created_at_epoch := 1, project := some "demo" }]

/-- Five `broadcastTokenUpdate` invocations inside a 300 ms window. -/
def c7FiveCalls : List BroadcastCall :=
  [⟨100000, [], false⟩, ⟨100050, [], false⟩, ⟨100150, [], false⟩,
   ⟨100220, [], false⟩, ⟨100300, [], false⟩]

/-- Five duration samples 10..50 ms (§8 Scenario 6). -/
def c9Records : List ProcessingTimeRecord :=
  [⟨1, 10, "Read", 0, 1⟩, ⟨2, 20, "Read", 0, 1⟩, ⟨3, 30, "Read", 0, 1⟩,
   ⟨4, 40, "Read", 0, 1⟩, ⟨5, 50, "Read", 0, 1⟩]

/-- The rows matching the summary filter. -/
def filteredRows (db : List ObservationRow) (project : Option String)
    (sinceEpoch : Option Nat) : List ObservationRow :=
  db.filter (matchesFilter project sinceEpoch)

/-- Read-token total over the filtered rows as `getSummary` computes it:
per-row `calculateReadTokens` on the SELECT-projected row. -/
def totalReadOf (db : List ObservationRow) (project : Option String)
    (sinceEpoch : Option Nat) : Nat :=
  ((filteredRows db project sinceEpoch).map
    (fun o => calculateReadTokens (selectSummaryRow o))).sum

/-- Discovery-token total over the filtered rows. -/
def totalDiscoveryOf (db : List ObservationRow) (project : Option String)
    (sinceEpoch : Option Nat) : Nat :=
  ((filteredRows db project sinceEpoch).map
    (fun o => o.discovery_tokens.getD 0)).sum

/-! ## Helper lemmas -/

theorem selectSummaryRow_discovery (o : ObservationRow) :
    (selectSummaryRow o).discovery_tokens = o.discovery_tokens := rfl

theorem summaryLoop_foldl (rows : List ObservationRow) (a b : Nat) :
    rows.foldl
        (fun acc o => (acc.1 + calculateReadTokens o, acc.2 + o.discovery_tokens.getD 0))
        (a, b)
      = (a + (rows.map calculateReadTokens).sum,
         b + (rows.map (fun o => o.discovery_tokens.getD 0)).sum) := by
  induction rows generalizing a b with
  | nil => simp
  | cons o rest ih =>
    simp only [List.foldl_cons, List.map_cons, List.sum_cons, ih]
    exact Prod.ext (by ring) (by ring)

theorem summaryLoop_eq (rows : List ObservationRow) :
    summaryLoop rows =
      ((rows.map calculateReadTokens).sum,
       (rows.map (fun o => o.discovery_tokens.getD 0)).sum) := by
  simpa [summaryLoop] using summaryLoop_foldl rows 0 0

/-- `getSummary` in closed form: the filtered row count and per-row sums,
with each derived field written out. -/
theorem getSummary_eq (db : List ObservationRow) (project : Option String)
    (sinceEpoch : Option Nat) :
    getSummary db project sinceEpoch =
      { totalObservations := (filteredRows db project sinceEpoch).length
        totalReadTokens := totalReadOf db project sinceEpoch
        totalDiscoveryTokens := totalDiscoveryOf db project sinceEpoch
        savings := (totalDiscoveryOf db project sinceEpoch : ℤ)
          - (totalReadOf db project sinceEpoch : ℤ)
        savingsPercent :=
          if 0 < totalDiscoveryOf db project sinceEpoch then
            jsRound
              ((((totalDiscoveryOf db project sinceEpoch : ℤ)
                  - (totalReadOf db project sinceEpoch : ℤ) : ℤ) : ℚ)
                / (totalDiscoveryOf db project sinceEpoch : ℚ) * 100)
          else 0
        efficiencyGain :=
          if 0 < totalReadOf db project sinceEpoch then
            (jsRound ((totalDiscoveryOf db project sinceEpoch : ℚ)
              / (totalReadOf db project sinceEpoch : ℚ) * 10) : ℚ) / 10
          else 0
        avgReadTokensPerObs :=
          if 0 < (filteredRows db project sinceEpoch).length then
            natRoundDiv (totalReadOf db project sinceEpoch)
              (filteredRows db project sinceEpoch).length
          else 0
        avgDiscoveryTokensPerObs :=
          if 0 < (filteredRows db project sinceEpoch).length then
            natRoundDiv (totalDiscoveryOf db project sinceEpoch)
              (filteredRows db project sinceEpoch).length
          else 0 } := by
  simp only [getSummary, summaryLoop_eq, List.map_map, Function.comp_def,
    selectSummaryRow_discovery, List.length_map, filteredRows, totalReadOf,
    totalDiscoveryOf]

/-! ## C4 — summary record arithmetic -/

/-- C4: for every observation table and project/since filter, the record
returned by `getSummary` has `totalObservations` and the two totals equal to
the count and per-row sums over the filtered rows, satisfies
`savings = totalDiscoveryTokens − totalReadTokens` exactly (equivalently
`savings + totalReadTokens = totalDiscoveryTokens`),
`savingsPercent = round(savings/totalDiscoveryTokens·100)` with `0` when the
denominator is zero, `efficiencyGain =
round(totalDiscoveryTokens/totalReadTokens·10)/10` with `0` when the
denominator is zero, and per-observation averages equal to the totals
divided by `totalObservations` rounded to the nearest integer, `0` when
there are no observations. -/
theorem getSummary_record_arithmetic (db : List ObservationRow)
    (project : Option String) (sinceEpoch : Option Nat) :
    (getSummary db project sinceEpoch).totalObservations
        = (filteredRows db project sinceEpoch).length ∧
    (getSummary db project sinceEpoch).totalReadTokens
        = totalReadOf db project sinceEpoch ∧
    (getSummary db project sinceEpoch).totalDiscoveryTokens
        = totalDiscoveryOf db project sinceEpoch ∧
    (getSummary db project sinceEpoch).savings
        = ((getSummary db project sinceEpoch).totalDiscoveryTokens : ℤ)
          - ((getSummary db project sinceEpoch).totalReadTokens : ℤ) ∧
    (getSummary db project sinceEpoch).savings
          + ((getSummary db project sinceEpoch).totalReadTokens : ℤ)
        = ((getSummary db project sinceEpoch).totalDiscoveryTokens : ℤ) ∧
    (getSummary db project sinceEpoch).savingsPercent
        = (if 0 < (getSummary db project sinceEpoch).totalDiscoveryTokens then
            jsRound (((getSummary db project sinceEpoch).savings : ℚ)
              / ((getSummary db project sinceEpoch).totalDiscoveryTokens : ℚ) * 100)
          else 0) ∧
    (getSummary db project sinceEpoch).efficiencyGain
        = (if 0 < (getSummary db project sinceEpoch).totalReadTokens then
            (jsRound (((getSummary db project sinceEpoch).totalDiscoveryTokens : ℚ)
              / ((getSummary db project sinceEpoch).totalReadTokens : ℚ) * 10) : ℚ) / 10
          else 0) ∧
    (getSummary db project sinceEpoch).avgReadTokensPerObs
        = (if 0 < (getSummary db project sinceEpoch).totalObservations then
            natRoundDiv (getSummary db project sinceEpoch).totalReadTokens
              (getSummary db project sinceEpoch).totalObservations
          else 0) ∧
    (getSummary db project sinceEpoch).avgDiscoveryTokensPerObs
        = (if 0 < (getSummary db project sinceEpoch).totalObservations then
            natRoundDiv (getSummary db project sinceEpoch).totalDiscoveryTokens
              (getSummary db project sinceEpoch).totalObservations
          else 0) := by
  rw [getSummary_eq]
  exact ⟨rfl, rfl, rfl, rfl, by push_cast; ring, rfl, rfl, rfl, rfl⟩

/-! ## C1 — per-row read-token cost aggregated by getSummary -/

/-- C1 (code bug): the spec's per-row cost counts all seven text fields, so
the stored observation `c1FailingObs` (title `"ok"`, concepts
`["abcdef"]`, all other content empty) costs `ceil(8/4) = 2` read tokens;
but `getSummary`'s SELECT list omits `concepts`, `files_read` and
`files_modified`, so `calculateReadTokens` sees them as `undefined` and the
code aggregates only `ceil(2/4) = 1`. -/
theorem getSummary_drops_concepts_columns :
    specReadTokenCost c1FailingObs = 2 ∧
    calculateReadTokens (selectSummaryRow c1FailingObs) = 1 ∧
    (getSummary [c1FailingObs] none none).totalReadTokens = 1 ∧
    calculateReadTokens c1FailingObs = specReadTokenCost c1FailingObs := by
  refine ⟨by decide, by decide, by decide, by decide⟩

/-! ## C5 — cache invalidation -/

/-- C5 (counterexample): as stated, invalidation with no project argument
would drop only `summary:*` keys, so the key `"by-project:10:all"` would
survive; and invalidation with project `"foo"` would drop only keys
referencing `"foo"`, so `"summary:bar:all"` would survive. The code deletes
both. -/
theorem invalidateCache_claim_false :
    invalidateCache none ["by-project:10:all"] ≠ ["by-project:10:all"] ∧
    invalidateCache (some "foo") ["summary:bar:all"] ≠ ["summary:bar:all"] := by
  refine ⟨by decide, by decide⟩

/-- C5 (amended): `invalidateCache project?` deletes every key that contains
the project string or starts with `summary:` when a project is given, and
deletes all keys when no project is given. -/
theorem invalidateCache_characterization (cache : List String) (p : String) :
    invalidateCache (some p) cache
        = cache.filter (fun k => !(strIncludes k p || isSummaryKey k)) ∧
    invalidateCache none cache = [] := by
  induction cache with
  | nil => exact ⟨rfl, rfl⟩
  | cons k rest ih =>
    refine ⟨?_, by simp [invalidateCache, ih.2]⟩
    cases hs : strIncludes k p with
    | true => simp [invalidateCache, hs, List.filter_cons, ih.1]
    | false =>
      cases hk : isSummaryKey k with
      | true => simp [invalidateCache, hs, hk, List.filter_cons, ih.1]
      | false => simp [invalidateCache, hs, hk, List.filter_cons, ih.1]

/-! ## C3 — endless-mode projection -/

theorem stream_foldl (size : ObservationRow → Nat) (rows : List ObservationRow)
    (d x c : Nat) :
    rows.foldl
        (fun acc o =>
          let ctx := acc.2.1 + size o
          (acc.1 + o.discovery_tokens.getD 0, ctx, acc.2.2 + ctx))
        (d, x, c)
      = (d + (rows.map (fun o => o.discovery_tokens.getD 0)).sum,
         x + (rows.map size).sum,
         c + rows.length * x + prefixSumTotal (rows.map size)) := by
  induction rows generalizing d x c with
  | nil => simp [prefixSumTotal]
  | cons o rest ih =>
    simp only [List.foldl_cons, List.map_cons, List.sum_cons, List.length_cons,
      prefixSumTotal, ih, List.length_map]
    refine Prod.ext (by ring) (Prod.ext (by ring) ?_)
    simp only
    ring

theorem simulateWithout_eq (rows : List ObservationRow) :
    simulateWithout rows
      = ((rows.map (fun o => o.discovery_tokens.getD 0)).sum,
         (rows.map (fun o => estimateOriginalSize (o.discovery_tokens.getD 0))).sum,
         prefixSumTotal
           (rows.map (fun o => estimateOriginalSize (o.discovery_tokens.getD 0)))) := by
  simpa [simulateWithout] using
    stream_foldl (fun o => estimateOriginalSize (o.discovery_tokens.getD 0)) rows 0 0 0

theorem simulateWith_eq (rows : List ObservationRow) :
    simulateWith rows
      = ((rows.map (fun o => o.discovery_tokens.getD 0)).sum,
         (rows.map calculateReadTokens).sum,
         prefixSumTotal (rows.map calculateReadTokens)) := by
  simpa [simulateWith] using stream_foldl calculateReadTokens rows 0 0 0

/-- C3: for every table, project filter and count, `getEndlessModeProjection`
simulates the two cumulative streams over the most-recent-first selected
rows — without endless mode the context grows by `2·discoveryTokens` per
step, with endless mode by the observation's read tokens; each side's
`discoveryTokens` is the plain sum, its `continuationTokens` the sum of the
running context over all steps, and `totalTokens` their sum — and returns
`tokensSaved = totalTokens_w − totalTokens_e`,
`percentSaved = round(tokensSaved/totalTokens_w·1000)/10` (0 when
`totalTokens_w = 0`), `efficiencyGain = round(totalTokens_w/totalTokens_e·10)/10`
(0 when `totalTokens_e = 0`), and the all-zero projection when no
observations match. -/
theorem getEndlessModeProjection_spec (db : List ObservationRow)
    (project : Option String) (observationCount : Nat) :
    (getEndlessModeProjection db project observationCount).withoutEndlessMode.discoveryTokens
        = ((projectionRows db project observationCount).map
            (fun o => o.discovery_tokens.getD 0)).sum ∧
    (getEndlessModeProjection db project observationCount).withoutEndlessMode.continuationTokens
        = prefixSumTotal ((projectionRows db project observationCount).map
            (fun o => estimateOriginalSize (o.discovery_tokens.getD 0))) ∧
    (getEndlessModeProjection db project observationCount).withoutEndlessMode.totalTokens
        = (getEndlessModeProjection db project observationCount).withoutEndlessMode.discoveryTokens
          + (getEndlessModeProjection db project observationCount).withoutEndlessMode.continuationTokens ∧
    (getEndlessModeProjection db project observationCount).withEndlessMode.discoveryTokens
        = ((projectionRows db project observationCount).map
            (fun o => o.discovery_tokens.getD 0)).sum ∧
    (getEndlessModeProjection db project observationCount).withEndlessMode.continuationTokens
        = prefixSumTotal ((projectionRows db project observationCount).map
            calculateReadTokens) ∧
    (getEndlessModeProjection db project observationCount).withEndlessMode.totalTokens
        = (getEndlessModeProjection db project observationCount).withEndlessMode.discoveryTokens
          + (getEndlessModeProjection db project observationCount).withEndlessMode.continuationTokens ∧
    (getEndlessModeProjection db project observationCount).tokensSaved
        = ((getEndlessModeProjection db project observationCount).withoutEndlessMode.totalTokens : ℤ)
          - ((getEndlessModeProjection db project observationCount).withEndlessMode.totalTokens : ℤ) ∧
    (getEndlessModeProjection db project observationCount).percentSaved
        = (if 0 < (getEndlessModeProjection db project observationCount).withoutEndlessMode.totalTokens then
            (jsRound (((getEndlessModeProjection db project observationCount).tokensSaved : ℚ)
              / ((getEndlessModeProjection db project observationCount).withoutEndlessMode.totalTokens : ℚ)
              * 1000) : ℚ) / 10
          else 0) ∧
    (getEndlessModeProjection db project observationCount).efficiencyGain
        = (if 0 < (getEndlessModeProjection db project observationCount).withEndlessMode.totalTokens then
            (jsRound (((getEndlessModeProjection db project observationCount).withoutEndlessMode.totalTokens : ℚ)
              / ((getEndlessModeProjection db project observationCount).withEndlessMode.totalTokens : ℚ)
              * 10) : ℚ) / 10
          else 0) ∧
    (projectionRows db project observationCount = [] →
      getEndlessModeProjection db project observationCount = emptyProjection) := by
  by_cases hempty : projectionRows db project observationCount = []
  · have h : getEndlessModeProjection db project observationCount = emptyProjection := by
      simp [getEndlessModeProjection, hempty]
    rw [h, hempty]
    simp [emptyProjection, prefixSumTotal]
  · have hne : (projectionRows db project observationCount).isEmpty = false := by
      simpa [List.isEmpty_iff] using hempty
    simp only [getEndlessModeProjection, hne, Bool.false_eq_true, if_false,
      simulateWithout_eq, simulateWith_eq]
    exact ⟨trivial, trivial, trivial, trivial, trivial, trivial, trivial, trivial,
      trivial, fun h => absurd h hempty⟩

/-- C3 (code bug): the claim's with-endless-mode stream grows per step by
`readTokens(obs)`, the spec §4.7 seven-field heuristic — on the one-row
table holding `c1FailingObs` (title `"ok"`, concepts `["abcdef"]`, zero
discovery tokens) that cost is `ceil(8/4) = 2`, so the claimed simulation
returns `totalTokens_e = D_e + C_e = 0 + 2 = 2`. But the projection's
SELECT (`id, type, title, subtitle, narrative, facts, discovery_tokens`)
omits `concepts`, `files_read` and `files_modified` exactly as
`getSummary`'s does, so the code's increment is `calculateReadTokens` of
the projected row (`ceil(2/4) = 1`) and it returns `totalTokens_e = 1`. -/
theorem getEndlessModeProjection_drops_concepts_columns :
    specReadTokenCost c1FailingObs = 2 ∧
    (([c1FailingObs].map (fun o => o.discovery_tokens.getD 0)).sum)
        + prefixSumTotal ([c1FailingObs].map specReadTokenCost) = 2 ∧
    calculateReadTokens (selectProjectionRow c1FailingObs) = 1 ∧
    (getEndlessModeProjection [c1FailingObs] none 50).withEndlessMode.continuationTokens
        = 1 ∧
    (getEndlessModeProjection [c1FailingObs] none 50).withEndlessMode.totalTokens
        = 1 := by
  refine ⟨by decide, by decide, by decide, by decide, by decide⟩

/-! ## C2 — per-reply token accounting -/

theorem storeObservationsLoop_snd {α : Type} (l : List α) (d : Nat) :
    ∀ p ∈ storeObservationsLoop l d, p.2 = d := by
  induction l with
  | nil => intro p hp; cases hp
  | cons o rest ih =>
    intro p hp
    rcases List.mem_cons.mp hp with h | h
    · rw [h]
    · exact ih p h

/-- C2: for an assistant reply carrying a usage record, the update adds
`input_tokens + cache_creation_input_tokens` to the cumulative input count
and `output_tokens` to the cumulative output count, is independent of
`cache_read_input_tokens`, and the returned `discoveryTokens` is exactly the
cumulative total's growth over the `tokensBefore` snapshot
(`input + cache_creation + output`); the storing loop passes that one delta
to every observation persisted from the reply. -/
theorem assistantStep_token_accounting (s : SessionTokens) (u : Usage)
    {α : Type} (observations : List α) :
    (assistantStep s (some u)).1.cumulativeInputTokens
        = s.cumulativeInputTokens + u.input_tokens + u.cache_creation_input_tokens ∧
    (assistantStep s (some u)).1.cumulativeOutputTokens
        = s.cumulativeOutputTokens + u.output_tokens ∧
    (assistantStep s (some u)).2
        = ((assistantStep s (some u)).1.cumulativeInputTokens
            + (assistantStep s (some u)).1.cumulativeOutputTokens)
          - (s.cumulativeInputTokens + s.cumulativeOutputTokens) ∧
    (assistantStep s (some u)).2
        = u.input_tokens + u.cache_creation_input_tokens + u.output_tokens ∧
    (∀ k, assistantStep s (some { u with cache_read_input_tokens := k })
        = assistantStep s (some u)) ∧
    (∀ p ∈ storeObservationsLoop observations (assistantStep s (some u)).2,
        p.2 = (assistantStep s (some u)).2) := by
  have hin : (assistantStep s (some u)).1.cumulativeInputTokens
      = s.cumulativeInputTokens + u.input_tokens + u.cache_creation_input_tokens := by
    by_cases h : u.cache_creation_input_tokens = 0 <;>
      simp [assistantStep, applyUsage, h]
  have hout : (assistantStep s (some u)).1.cumulativeOutputTokens
      = s.cumulativeOutputTokens + u.output_tokens := by
    simp [assistantStep, applyUsage]
  have hdelta : (assistantStep s (some u)).2
      = ((assistantStep s (some u)).1.cumulativeInputTokens
          + (assistantStep s (some u)).1.cumulativeOutputTokens)
        - (s.cumulativeInputTokens + s.cumulativeOutputTokens) := rfl
  refine ⟨hin, hout, hdelta, ?_, ?_, storeObservationsLoop_snd _ _⟩
  · rw [hdelta, hin, hout]; omega
  · intro k
    by_cases h : u.cache_creation_input_tokens = 0 <;>
      simp [assistantStep, applyUsage, h]

/-- C2 witness: concrete instantiation — the delta for usage
(input 100, output 20, cache-creation 30, cache-read 999) is 150, and the
single stored observation receives it. -/
theorem assistantStep_token_accounting_witness :
    ((0 : Nat), (assistantStep ⟨0, 0⟩ (some ⟨100, 20, 30, 999⟩)).2).2
      = (assistantStep ⟨0, 0⟩ (some ⟨100, 20, 30, 999⟩)).2 :=
  (assistantStep_token_accounting ⟨0, 0⟩ ⟨100, 20, 30, 999⟩ [(0 : Nat)]).2.2.2.2.2
    _ (by decide)

/-! ## Broadcast-throttle lemmas (C6, C7, C10) -/

theorem broadcastTokenUpdate_spec (st : WorkerState) (c : BroadcastCall) :
    (c.now < st.lastTokenBroadcast + 1000 → broadcastTokenUpdate st c = .ok (st, none)) ∧
    (¬ c.now < st.lastTokenBroadcast + 1000 →
      broadcastTokenUpdate st c = .ok ({ st with lastTokenBroadcast := c.now }, none) ∨
      broadcastTokenUpdate st c
        = .ok ({ st with lastTokenBroadcast := c.now },
            some (.full (getSummary c.db none none)))) := by
  constructor
  · intro h1; simp [broadcastTokenUpdate, h1]
  · intro h1
    by_cases h2 : st.initialized
    · by_cases h3 : c.summaryFails
      · left; simp [broadcastTokenUpdate, h1, h2, h3]
      · right; simp [broadcastTokenUpdate, h1, h2, h3]
    · left; simp [broadcastTokenUpdate, h1, h2]

theorem broadcastRun_cons_none (st st' : WorkerState) (c : BroadcastCall)
    (rest : List BroadcastCall)
    (h : broadcastTokenUpdate st c = .ok (st', none)) :
    broadcastRun st (c :: rest) = broadcastRun st' rest := by
  simp [broadcastRun, h]

theorem broadcastRun_cons_some (st st' : WorkerState) (c : BroadcastCall)
    (rest : List BroadcastCall) (p : TokenPayload)
    (h : broadcastTokenUpdate st c = .ok (st', some p)) :
    broadcastRun st (c :: rest) = (c.now, p) :: broadcastRun st' rest := by
  simp [broadcastRun, h]

theorem broadcastRun_lower (calls : List BroadcastCall) (st : WorkerState) :
    ∀ e ∈ broadcastRun st calls, st.lastTokenBroadcast + 1000 ≤ e.1 := by
  induction calls generalizing st with
  | nil => intro e he; simp [broadcastRun] at he
  | cons c rest ih =>
    intro e he
    obtain ⟨hthr, hacc⟩ := broadcastTokenUpdate_spec st c
    by_cases h1 : c.now < st.lastTokenBroadcast + 1000
    · rw [broadcastRun_cons_none st st c rest (hthr h1)] at he
      exact ih st e he
    · rcases hacc h1 with h | h
      · rw [broadcastRun_cons_none st _ c rest h] at he
        have := ih _ e he
        simp only at this
        omega
      · rw [broadcastRun_cons_some st _ c rest _ h] at he
        rcases List.mem_cons.mp he with rfl | hm
        · simp; omega
        · have := ih _ e hm
          simp only at this
          omega

theorem broadcastRun_chain (calls : List BroadcastCall) (st : WorkerState) :
    List.Chain' (fun a b => a.1 + 1000 ≤ b.1) (broadcastRun st calls) := by
  induction calls generalizing st with
  | nil => simp [broadcastRun]
  | cons c rest ih =>
    obtain ⟨hthr, hacc⟩ := broadcastTokenUpdate_spec st c
    by_cases h1 : c.now < st.lastTokenBroadcast + 1000
    · rw [broadcastRun_cons_none st st c rest (hthr h1)]
      exact ih st
    · rcases hacc h1 with h | h
      · rw [broadcastRun_cons_none st _ c rest h]
        exact ih _
      · rw [broadcastRun_cons_some st _ c rest _ h]
        refine List.chain'_cons'.mpr ⟨?_, ih _⟩
        intro b hb
        have hmem := List.mem_of_mem_head? hb
        have := broadcastRun_lower rest _ b hmem
        simp only at this
        omega

/-! ## C7 — one-second throttle -/

/-- C7: a `broadcastTokenUpdate` call arriving strictly less than 1000 ms
after the stored last-broadcast time emits nothing and leaves the state
unchanged; over any call sequence, consecutive `token_update` emissions are
at least 1000 ms apart; and the five calls of `c7FiveCalls` (a 300 ms
window) emit exactly one frame. -/
theorem broadcastTokenUpdate_throttle (st : WorkerState)
    (calls : List BroadcastCall) (c : BroadcastCall)
    (h : c.now < st.lastTokenBroadcast + 1000) :
    broadcastTokenUpdate st c = .ok (st, none) ∧
    List.Chain' (fun a b => a.1 + 1000 ≤ b.1) (broadcastRun st calls) ∧
    (broadcastRun ⟨0, true⟩ c7FiveCalls).length = 1 := by
  refine ⟨(broadcastTokenUpdate_spec st c).1 h, broadcastRun_chain calls st, ?_⟩
  decide

/-- C7 witness: a call 500 ms after the last broadcast is dropped. -/
theorem broadcastTokenUpdate_throttle_witness :
    broadcastTokenUpdate ⟨100000, true⟩ ⟨100500, [], false⟩
        = .ok (⟨100000, true⟩, none) ∧
    List.Chain' (fun a b => a.1 + 1000 ≤ b.1) (broadcastRun ⟨100000, true⟩ []) ∧
    (broadcastRun ⟨0, true⟩ c7FiveCalls).length = 1 :=
  broadcastTokenUpdate_throttle ⟨100000, true⟩ [] ⟨100500, [], false⟩ (by decide)

/-! ## C10 — broadcastTokenUpdate never throws -/

/-- C10: `broadcastTokenUpdate` always returns normally — when the metrics
service is uninitialized it silently emits nothing, and a failure inside the
summary computation is caught, emitting nothing. -/
theorem broadcastTokenUpdate_total (st : WorkerState) (c : BroadcastCall) :
    (∃ r, broadcastTokenUpdate st c = .ok r) ∧
    (st.initialized = false →
      ∀ st' e, broadcastTokenUpdate st c = .ok (st', e) → e = none) ∧
    (c.summaryFails = true →
      ∀ st' e, broadcastTokenUpdate st c = .ok (st', e) → e = none) := by
  by_cases h1 : c.now < st.lastTokenBroadcast + 1000
  · refine ⟨⟨(st, none), by simp [broadcastTokenUpdate, h1]⟩, ?_, ?_⟩ <;>
      · intro _ st' e he
        simp [broadcastTokenUpdate, h1] at he
        exact he.2.symm
  · by_cases h2 : st.initialized
    · by_cases h3 : c.summaryFails
      · refine ⟨⟨({ st with lastTokenBroadcast := c.now }, none),
          by simp [broadcastTokenUpdate, h1, h2, h3]⟩, ?_, ?_⟩
        · intro hinit; rw [hinit] at h2; cases h2
        · intro _ st' e he
          simp [broadcastTokenUpdate, h1, h2, h3] at he
          exact he.2.symm
      · refine ⟨⟨({ st with lastTokenBroadcast := c.now },
          some (.full (getSummary c.db none none))),
          by simp [broadcastTokenUpdate, h1, h2, h3]⟩, ?_, ?_⟩
        · intro hinit; rw [hinit] at h2; cases h2
        · intro hfail; rw [hfail] at h3; cases h3 rfl
    · have h2f : st.initialized = false := by
        cases hi : st.initialized
        · rfl
        · rw [hi] at h2; cases h2 rfl
      refine ⟨⟨({ st with lastTokenBroadcast := c.now }, none),
        by simp [broadcastTokenUpdate, h1, h2f]⟩, ?_, ?_⟩ <;>
        · intro _ st' e he
          simp [broadcastTokenUpdate, h1, h2f] at he
          exact he.2.symm

/-- C10 witness: an uninitialized service swallows the call. -/
theorem broadcastTokenUpdate_total_witness :
    (⟨0, false⟩ : WorkerState).initialized = false ∧
    (none : Option TokenPayload) = none :=
  ⟨rfl, (broadcastTokenUpdate_total ⟨0, false⟩ ⟨5000, [], true⟩).2.1 rfl
    ⟨5000, false⟩ none rfl⟩

/-! ## C6 — what the live push emits -/

/-- C6 (counterexample): on the one-row table `c6Db`, `broadcastTokenUpdate`
emits the full `TokenSummary` computed by `getSummary()` — whose read-token
total is `Math.ceil(1/4) = 1` — while `getQuickSummary`'s SQL truncation
yields 0; the emitted payload is not the quick-summary value. -/
theorem broadcastTokenUpdate_not_quick :
    broadcastTokenUpdate ⟨0, true⟩ ⟨5000, c6Db, false⟩
        = .ok (⟨5000, true⟩, some (.full (getSummary c6Db none none))) ∧
    TokenPayload.full (getSummary c6Db none none)
        ≠ TokenPayload.quick (getQuickSummary c6Db) ∧
    (getSummary c6Db none none).totalReadTokens = 1 ∧
    (getQuickSummary c6Db).totalReadTokens = 0 := by
  refine ⟨rfl, fun h => TokenPayload.noConfusion h, by decide, by decide⟩

/-- C6 (amended): every `token_update` frame emitted by
`broadcastTokenUpdate` carries the full `TokenSummary` computed by
`this.tokenMetricsService.getSummary()` (no filters) over the table at the
emitting call — not the `getQuickSummary` fast-path record. -/
theorem broadcastRun_payload_is_full_summary (st : WorkerState)
    (calls : List BroadcastCall) (t : Nat) (p : TokenPayload)
    (h : (t, p) ∈ broadcastRun st calls) :
    ∃ c ∈ calls, c.now = t ∧ p = TokenPayload.full (getSummary c.db none none) := by
  induction calls generalizing st with
  | nil => simp [broadcastRun] at h
  | cons c rest ih =>
    obtain ⟨hthr, hacc⟩ := broadcastTokenUpdate_spec st c
    by_cases h1 : c.now < st.lastTokenBroadcast + 1000
    · rw [broadcastRun_cons_none st st c rest (hthr h1)] at h
      obtain ⟨c', hc', hprop⟩ := ih _ h
      exact ⟨c', List.mem_cons_of_mem c hc', hprop⟩
    · rcases hacc h1 with hb | hb
      · rw [broadcastRun_cons_none st _ c rest hb] at h
        obtain ⟨c', hc', hprop⟩ := ih _ h
        exact ⟨c', List.mem_cons_of_mem c hc', hprop⟩
      · rw [broadcastRun_cons_some st _ c rest _ hb] at h
        rcases List.mem_cons.mp h with heq | hm
        · have h1' : t = c.now := congrArg Prod.fst heq
          have h2' : p = TokenPayload.full (getSummary c.db none none) :=
            congrArg Prod.snd heq
          exact ⟨c, List.mem_cons_self c rest, h1'.symm, h2'⟩
        · obtain ⟨c', hc', hprop⟩ := ih _ hm
          exact ⟨c', List.mem_cons_of_mem c hc', hprop⟩

/-- C6 witness: the single-call run on `c6Db` emits one frame, which the
theorem identifies as the full summary of that call's table. -/
theorem broadcastRun_payload_is_full_summary_witness :
    ∃ c ∈ [(⟨5000, c6Db, false⟩ : BroadcastCall)], c.now = 5000 ∧
      TokenPayload.full (getSummary c6Db none none)
        = TokenPayload.full (getSummary c.db none none) :=
  broadcastRun_payload_is_full_summary ⟨0, true⟩ [⟨5000, c6Db, false⟩] 5000
    (TokenPayload.full (getSummary c6Db none none))
    (by
      rw [broadcastRun_cons_some ⟨0, true⟩ ⟨5000, true⟩ ⟨5000, c6Db, false⟩ []
        (TokenPayload.full (getSummary c6Db none none)) rfl]
      exact List.mem_cons_self _ _)

/-! ## C8 — lastPromptNumber in the message generator -/

/-- C8 (counterexample): with `lastPromptNumber = 5`, an observation message
carrying `prompt_number = 3` drives the session's `lastPromptNumber` down to
3 — the update is a plain assignment, so the value is not non-decreasing for
arbitrary message sequences. -/
theorem lastPromptNumber_can_decrease :
    promptNumberTrace 5 [⟨PendingKind.observation, some 3⟩] = [3] ∧
    ¬ List.Chain' (fun a b => a ≤ b)
        (5 :: promptNumberTrace 5 [⟨PendingKind.observation, some 3⟩]) := by
  refine ⟨rfl, fun h => ?_⟩
  have h5 : (5 : Nat) ≤ 3 := (List.chain'_cons.mp h).1
  omega

/-- C8 (amended): `lastPromptNumber` is set to each observation frame's
carried `prompt_number` before that frame is yielded to the analyzer; it
never decreases during a session provided the carried prompt numbers are
nondecreasing starting from the session's current value (the assignment is
not a maximum, so an out-of-order prompt number lowers it). -/
theorem generator_prompt_number (init : Nat) (msgs : List PendingMsg)
    (h : List.Chain' (fun a b => a ≤ b) (init :: carriedPromptNumbers msgs)) :
    List.Chain' (fun a b => a ≤ b) (init :: promptNumberTrace init msgs) ∧
    ∀ pr ∈ generatorYields init msgs, ∀ n : Nat,
      pr.2.kind = PendingKind.observation → pr.2.prompt_number = some n →
        pr.1 = n := by
  induction msgs generalizing init with
  | nil =>
    refine ⟨by simp [promptNumberTrace], ?_⟩
    intro pr hpr
    simp [generatorYields] at hpr
  | cons m rest ih =>
    obtain ⟨k, pn⟩ := m
    cases k with
    | observation =>
      cases pn with
      | some n =>
        rw [show carriedPromptNumbers (⟨PendingKind.observation, some n⟩ :: rest)
            = n :: carriedPromptNumbers rest by simp [carriedPromptNumbers]] at h
        rw [List.chain'_cons] at h
        have IH := ih n h.2
        rw [show promptNumberTrace init (⟨PendingKind.observation, some n⟩ :: rest)
            = n :: promptNumberTrace n rest from rfl]
        rw [show generatorYields init (⟨PendingKind.observation, some n⟩ :: rest)
            = (n, ⟨PendingKind.observation, some n⟩) :: generatorYields n rest from rfl]
        refine ⟨List.chain'_cons.mpr ⟨h.1, IH.1⟩, ?_⟩
        intro pr hpr n' hk hn
        rcases List.mem_cons.mp hpr with heq | hm
        · subst heq
          simp only [Option.some.injEq] at hn
          simpa using hn
        · exact IH.2 pr hm n' hk hn
      | none =>
        rw [show carriedPromptNumbers (⟨PendingKind.observation, none⟩ :: rest)
            = carriedPromptNumbers rest by simp [carriedPromptNumbers]] at h
        have IH := ih init h
        rw [show promptNumberTrace init (⟨PendingKind.observation, none⟩ :: rest)
            = init :: promptNumberTrace init rest from rfl]
        rw [show generatorYields init (⟨PendingKind.observation, none⟩ :: rest)
            = (init, ⟨PendingKind.observation, none⟩) :: generatorYields init rest
            from rfl]
        refine ⟨List.chain'_cons.mpr ⟨le_refl init, IH.1⟩, ?_⟩
        intro pr hpr n' hk hn
        rcases List.mem_cons.mp hpr with heq | hm
        · subst heq
          simp at hn
        · exact IH.2 pr hm n' hk hn
    | summarize =>
      cases pn with
      | some n =>
        rw [show carriedPromptNumbers (⟨PendingKind.summarize, some n⟩ :: rest)
            = carriedPromptNumbers rest by simp [carriedPromptNumbers]] at h
        have IH := ih init h
        rw [show promptNumberTrace init (⟨PendingKind.summarize, some n⟩ :: rest)
            = init :: promptNumberTrace init rest from rfl]
        rw [show generatorYields init (⟨PendingKind.summarize, some n⟩ :: rest)
            = (init, ⟨PendingKind.summarize, some n⟩) :: generatorYields init rest
            from rfl]
        refine ⟨List.chain'_cons.mpr ⟨le_refl init, IH.1⟩, ?_⟩
        intro pr hpr n' hk hn
        rcases List.mem_cons.mp hpr with heq | hm
        · subst heq
          simp at hk
        · exact IH.2 pr hm n' hk hn
      | none =>
        rw [show carriedPromptNumbers (⟨PendingKind.summarize, none⟩ :: rest)
            = carriedPromptNumbers rest by simp [carriedPromptNumbers]] at h
        have IH := ih init h
        rw [show promptNumberTrace init (⟨PendingKind.summarize, none⟩ :: rest)
            = init :: promptNumberTrace init rest from rfl]
        rw [show generatorYields init (⟨PendingKind.summarize, none⟩ :: rest)
            = (init, ⟨PendingKind.summarize, none⟩) :: generatorYields init rest
            from rfl]
        refine ⟨List.chain'_cons.mpr ⟨le_refl init, IH.1⟩, ?_⟩
        intro pr hpr n' hk hn
        rcases List.mem_cons.mp hpr with heq | hm
        · subst heq
          simp at hk
        · exact IH.2 pr hm n' hk hn

/-- C8 witness: a run whose carried prompt numbers 2, 3 are nondecreasing
from the initial value 1. -/
theorem generator_prompt_number_witness :
    List.Chain' (fun a b => a ≤ b)
        (1 :: promptNumberTrace 1
          [⟨PendingKind.observation, some 2⟩, ⟨PendingKind.observation, some 3⟩]) ∧
    ∀ pr ∈ generatorYields 1
        [⟨PendingKind.observation, some 2⟩, ⟨PendingKind.observation, some 3⟩],
      ∀ n : Nat, pr.2.kind = PendingKind.observation →
        pr.2.prompt_number = some n → pr.1 = n :=
  generator_prompt_number 1
    [⟨PendingKind.observation, some 2⟩, ⟨PendingKind.observation, some 3⟩]
    (by
      rw [show carriedPromptNumbers
          [⟨PendingKind.observation, some 2⟩, ⟨PendingKind.observation, some 3⟩]
          = [2, 3] from rfl]
      refine List.chain'_cons.mpr ⟨by omega, List.chain'_cons.mpr ⟨by omega, ?_⟩⟩
      simp)

/-- C3 witness: the empty table yields the all-zero projection. -/
theorem getEndlessModeProjection_spec_witness :
    getEndlessModeProjection [] none 0 = emptyProjection :=
  (getEndlessModeProjection_spec [] none 0).2.2.2.2.2.2.2.2.2 rfl

/-! ## C9 — processing-time percentiles -/

/-- C9 (counterexample): with no duration samples but one queue sample of
depth 7 inside the window, the returned stats record is not all-zero: the
queue-depth stats folded in from `getQueueHistory` report the sample. -/
theorem getProcessingTimes_empty_not_all_zero :
    (getProcessingTimes 2000 (some 0) [] [⟨1000, 7, 1⟩] 100).2.peakQueueDepth = 7 ∧
    (getProcessingTimes 2000 (some 0) [] [⟨1000, 7, 1⟩] 100).2
      ≠ ⟨0, 0, 0, 0, 0, 0⟩ := by
  have h7 : (getProcessingTimes 2000 (some 0) [] [⟨1000, 7, 1⟩] 100).2.peakQueueDepth
      = 7 := by decide
  refine ⟨h7, fun heq => ?_⟩
  rw [heq] at h7
  simp at h7

theorem percentile_nearest_rank (l : List Nat) (p : Nat) (hp1 : 1 ≤ p)
    (hp2 : p ≤ 100) (hl : 0 < l.length) :
    percentile l p = l.getD (ceilDiv (p * l.length) 100 - 1) 0 := by
  have hne : l.isEmpty = false := by
    cases l with
    | nil => simp at hl
    | cons a t => rfl
  have hmul : p * l.length ≤ 100 * l.length := Nat.mul_le_mul_right l.length hp2
  have hposmul : 1 ≤ p * l.length := by
    calc 1 = 1 * 1 := by omega
    _ ≤ p * l.length := Nat.mul_le_mul hp1 hl
  have key : ∀ m n : Nat, 1 ≤ m → m ≤ 100 * n → 1 ≤ n →
      (m + 100 - 1) / 100 - 1 ≤ n - 1 := by
    intro m n h1 h2 h3
    omega
  simp only [percentile, hne, Bool.false_eq_true, if_false]
  rw [Nat.min_eq_left]
  simp only [ceilDiv]
  exact key _ _ hposmul hmul hl

/-- C9 (amended): on a non-empty filtered duration set, `getProcessingTimes`
computes p50 and p95 by the nearest-rank method `index = ceil(p/100·n) − 1`
on the ascending-sorted durations and `avg` as the rounded mean — for the
samples `[10, 20, 30, 40, 50]` this yields `avg=30, p50=30, p95=50`; on an
empty filtered set the four duration-derived stats are zero, while the two
queue-depth stats are folded in from `getQueueHistory` and are zero only
when that history is empty over the same window. -/
theorem getProcessingTimes_stats (now : Nat) (sinceEpoch : Option Nat)
    (times : List ProcessingTimeRecord) (qh : List QueueHistoryPoint) :
    (0 < (sortedDurations now sinceEpoch times 100).length →
      (getProcessingTimes now sinceEpoch times qh 100).2.p50ProcessingTime
        = (sortedDurations now sinceEpoch times 100).getD
            (ceilDiv (50 * (sortedDurations now sinceEpoch times 100).length) 100 - 1) 0 ∧
      (getProcessingTimes now sinceEpoch times qh 100).2.p95ProcessingTime
        = (sortedDurations now sinceEpoch times 100).getD
            (ceilDiv (95 * (sortedDurations now sinceEpoch times 100).length) 100 - 1) 0 ∧
      (getProcessingTimes now sinceEpoch times qh 100).2.avgProcessingTime
        = natRoundDiv (sortedDurations now sinceEpoch times 100).sum
            (sortedDurations now sinceEpoch times 100).length) ∧
    ((sortedDurations now sinceEpoch times 100).length = 0 →
      (getProcessingTimes now sinceEpoch times qh 100).2.avgProcessingTime = 0 ∧
      (getProcessingTimes now sinceEpoch times qh 100).2.p50ProcessingTime = 0 ∧
      (getProcessingTimes now sinceEpoch times qh 100).2.p95ProcessingTime = 0 ∧
      (getProcessingTimes now sinceEpoch times qh 100).2.observationsPerMinute = 0) ∧
    (getProcessingTimes now sinceEpoch times qh 100).2.avgQueueDepth
        = (getQueueHistory now sinceEpoch qh 100).2.1 ∧
    (getProcessingTimes now sinceEpoch times qh 100).2.peakQueueDepth
        = (getQueueHistory now sinceEpoch qh 100).2.2 ∧
    (getProcessingTimes 100 (some 0) c9Records [] 100).2.avgProcessingTime = 30 ∧
    (getProcessingTimes 100 (some 0) c9Records [] 100).2.p50ProcessingTime = 30 ∧
    (getProcessingTimes 100 (some 0) c9Records [] 100).2.p95ProcessingTime = 50 := by
  refine ⟨?_, ?_, rfl, rfl, by decide, by decide, by decide⟩
  · intro hpos
    have hpos' :
        0 < (sortAsc ((filteredTimes now sinceEpoch times 100).map
          (fun p => p.duration))).length := hpos
    simp only [getProcessingTimes, sortedDurations, if_pos hpos']
    refine ⟨?_, ?_, ?_⟩
    · exact percentile_nearest_rank _ 50 (by omega) (by omega) hpos'
    · exact percentile_nearest_rank _ 95 (by omega) (by omega) hpos'
    · first
      | rfl
      | trivial
  · intro hzero
    have hneg :
        ¬ 0 < (sortAsc ((filteredTimes now sinceEpoch times 100).map
          (fun p => p.duration))).length := by
      simpa [sortedDurations] using hzero
    simp only [getProcessingTimes, sortedDurations, if_neg hneg]
    refine ⟨?_, ?_, ?_, ?_⟩ <;>
      first
      | rfl
      | trivial

/-- C9 witness: the concrete sample run discharges the non-empty and empty
hypotheses of the stats theorem. -/
theorem getProcessingTimes_stats_witness :
    (getProcessingTimes 100 (some 0) c9Records [] 100).2.p50ProcessingTime
      = (sortedDurations 100 (some 0) c9Records 100).getD
          (ceilDiv (50 * (sortedDurations 100 (some 0) c9Records 100).length) 100 - 1) 0 ∧
    (getProcessingTimes 2000 (some 0) [] [⟨1000, 7, 1⟩] 100).2.observationsPerMinute = 0 :=
  ⟨((getProcessingTimes_stats 100 (some 0) c9Records []).1 (by decide)).1,
   ((getProcessingTimes_stats 2000 (some 0) [] [⟨1000, 7, 1⟩]).2.1 (by decide)).2.2.2⟩

end ClaudeMem
